import Mathlib

/-!
# RiskAdvisor core engine: shallow embedding and verification

This file embeds the optimization-and-robustness core of the RiskAdvisor
repository in Lean 4 and proves, or refutes, the specification claims about
it.  The embedded code is:

* `src/backend/src/core/optimizer.py` — `Strategy`, `OptimizationResult`,
  `CoreOptimizer.optimize_single_objective`, `optimize_pareto`,
  `_filter_dominated`, `monte_carlo_analysis`, `sensitivity_analysis`,
  `get_optimal_portfolio`;
* `src/backend/src/adversarial/war_gaming.py` — `Attack`, `AttackResult`,
  `RedTeam._build_attack_library`, `RedTeam.apply_attack`, and the scoring
  and grading section of `PurpleTeam.assess_robustness`;
* `src/backend/src/horizons/multi_horizon.py` — `HorizonPlan`,
  `MultiHorizonOptimizer._configure_horizons`, `_classify_strategies`,
  `optimize_horizon`, `optimize_all_horizons`.

Modelling conventions:

* Python float/int arithmetic is modelled by exact rational arithmetic `ℚ`
  (the Python code never relies on float rounding; the `int(...)` truncations
  it performs are modelled explicitly by `int_trunc`).
* The external `pulp` CBC integer-program solver invoked by
  `optimize_single_objective` is modelled as exact enumeration over all
  0/1 assignments (all sublists of the catalog), returning a feasible subset
  that is optimal for the requested objective.  The repository's own code
  contributes the objective, the budget constraint, and the result assembly,
  which are transcribed verbatim.  Which optimal solution CBC returns is
  unspecified; the enumeration uses a fixed deterministic tie-break, and no
  theorem below depends on the tie-break.
* `numpy.random` draws in `monte_carlo_analysis` are passed in as an explicit
  stream of per-simulation, per-strategy `(cost, risk)` samples.
* Python object mutation in `sensitivity_analysis` is modelled by explicit
  state passing of the strategy catalog; the portfolio's selected strategies
  are identified by their positions in the catalog (Python aliases the very
  same objects).
-/

/-! ## Data model (`core/optimizer.py`, lines 31–120) -/

/-- `StrategyCategory` enum (`optimizer.py` lines 31–36). -/
inductive StrategyCategory where
  | maintenance
  | training
  | process
  | technology
  | policy
deriving DecidableEq, Inhabited

/-- The `Strategy` dataclass (`optimizer.py` lines 39–66).  The dataclass has
no `__post_init__`: its generated constructor stores every field verbatim and
performs no validation.  Numeric fields are Python floats/ints, modelled as
`ℚ`. -/
structure Strategy where
  id : String
  name : String
  category : StrategyCategory
  risk_reduction_pct : ℚ
  confidence : ℚ := 85/100
  cost_min : ℚ := 0
  cost_max : ℚ := 0
  cost_estimate : ℚ := 0
  time_min : ℚ := 0
  time_max : ℚ := 0
  time_estimate : ℚ := 0
  requires_budget : Bool := true
  disruption_level : String := "low"
  approval_level : String := "manager"
  applicable_risk_types : List String := []
deriving DecidableEq, Inhabited

/-- The `OptimizationResult` dataclass (`optimizer.py` lines 102–120).
The Python `Dict` metadata fields are modelled as association lists. -/
structure OptimizationResult where
  selected_strategies : List Strategy
  total_cost : ℚ
  total_risk_reduction : ℚ
  total_timeline_days : ℚ
  pareto_rank : ℕ := 1
  robustness_score : ℚ := 0
  cost_p5 : ℚ := 0
  cost_p95 : ℚ := 0
  risk_reduction_p5 : ℚ := 0
  risk_reduction_p95 : ℚ := 0
  constraints_satisfied : List (String × Bool) := []
  constraint_violations : List (String × ℚ) := []
deriving DecidableEq, Inhabited

/-- Sum of `cost_estimate` over a list of strategies
(`sum(s.cost_estimate for s in ...)`). -/
def listCost (l : List Strategy) : ℚ :=
  (l.map (fun s => s.cost_estimate)).sum

/-- Sum of `risk_reduction_pct` over a list of strategies. -/
def listRisk (l : List Strategy) : ℚ :=
  (l.map (fun s => s.risk_reduction_pct)).sum

/-- Sum of `time_estimate` over a list of strategies. -/
def listTimeSum (l : List Strategy) : ℚ :=
  (l.map (fun s => s.time_estimate)).sum

/-- `max((s.time_estimate for s in selected), default=0)`: the Python `max`
with a default returns 0 on an empty list and the true maximum otherwise. -/
def listTimeMax : List Strategy → ℚ
  | [] => 0
  | s :: rest => rest.foldl (fun m t => max m t.time_estimate) s.time_estimate

/-! ## The single-objective solver (`optimizer.py` lines 154–223) -/

/-- The objective strings accepted by `optimize_single_objective`
(`"risk_reduction"`, `"cost"`, `"timeline"`; the three `if` branches at
lines 178–194). -/
inductive Objective where
  | risk_reduction
  | cost
  | timeline
deriving DecidableEq

/-- All 0/1 assignments over the catalog, as sublists: the candidate space of
the binary program built at lines 171–201 (one binary variable per strategy).
The spec (§4.1) sanctions exact enumeration for the small catalogs this
system targets. -/
def subsets : List Strategy → List (List Strategy)
  | [] => [[]]
  | s :: rest => subsets rest ++ (subsets rest).map (fun sub => s :: sub)

/-- `objBetter obj a b` is true when candidate `a` is strictly better than `b`
for the objective: maximize summed risk reduction, or minimize summed cost /
summed timeline (lines 178–194; the timeline objective sums `time_estimate`,
see the code comment at lines 203–205). -/
def objBetter (obj : Objective) (a b : List Strategy) : Bool :=
  match obj with
  | .risk_reduction => decide (listRisk b < listRisk a)
  | .cost => decide (listCost a < listCost b)
  | .timeline => decide (listTimeSum a < listTimeSum b)

/-- Pick an optimal candidate from a list of feasible candidates, with a
fixed deterministic tie-break (models the CBC solve at line 208; CBC's choice
among optima is unspecified, and no theorem depends on the tie-break). -/
def pickBest (obj : Objective) : List (List Strategy) → Option (List Strategy)
  | [] => none
  | c :: cs =>
    match pickBest obj cs with
    | none => some c
    | some b => if objBetter obj c b then some c else some b

/-- `CoreOptimizer.optimize_single_objective` (`optimizer.py` lines 154–223):
solve the binary program whose single hard constraint is
`sum(cost_estimate · x) ≤ budget_limit`, then assemble the result from the
selected strategies: total cost, risk reduction capped at 95, timeline as the
max of the selected `time_estimate`s, and the budget-satisfaction flag.
An infeasible program (possible only for a negative budget) yields no
selected variables, hence the empty selection, exactly as extracting
`pulp.value(x) == 1` does.  `timeline_limit` is accepted but unused: the
timeline constraint in the source is commented out (lines 203–205). -/
def optimize_single_objective (strategies : List Strategy) (obj : Objective)
    (budget_limit : ℚ) (timeline_limit : ℚ) : OptimizationResult :=
  let feasible := (subsets strategies).filter
    (fun sub => decide (listCost sub ≤ budget_limit))
  let selected := (pickBest obj feasible).getD []
  { selected_strategies := selected
    total_cost := listCost selected
    total_risk_reduction := min (listRisk selected) 95
    total_timeline_days := listTimeMax selected
    constraints_satisfied :=
      [("budget", decide (listCost selected ≤ budget_limit))] }

/-! ## Pareto frontier (`optimizer.py` lines 225–281) -/

/-- `numpy.linspace a b n`: `n` evenly spaced values from `a` to `b`
inclusive (`[a]` when `n = 1`, empty when `n = 0`). -/
def linspace (a b : ℚ) (n : ℕ) : List ℚ :=
  match n with
  | 0 => []
  | 1 => [a]
  | m + 2 =>
    (List.range (m + 2)).map (fun i : ℕ => a + (i : ℚ) * (b - a) / ((m : ℚ) + 1))

/-- The domination test of `_filter_dominated` (`optimizer.py` lines
269–274): `other` dominates `sol` iff it is at least as good on all three
axes and strictly better on at least one. -/
def dominatesB (other sol : OptimizationResult) : Bool :=
  decide (sol.total_risk_reduction ≤ other.total_risk_reduction ∧
    other.total_cost ≤ sol.total_cost ∧
    other.total_timeline_days ≤ sol.total_timeline_days ∧
    (sol.total_risk_reduction < other.total_risk_reduction ∨
      other.total_cost < sol.total_cost ∨
      other.total_timeline_days < sol.total_timeline_days))

/-- `CoreOptimizer._filter_dominated` (`optimizer.py` lines 259–281): keep
exactly the solutions not dominated by any solution of the input list. -/
def filterDominated (sols : List OptimizationResult) : List OptimizationResult :=
  sols.filter (fun sol => !(sols.any (fun other => dominatesB other sol)))

/-- The rank-assignment loop of `optimize_pareto` (lines 254–255):
`sol.pareto_rank = i + 1` down the surviving list. -/
def assignRanks (k : ℕ) : List OptimizationResult → List OptimizationResult
  | [] => []
  | r :: rs => { r with pareto_rank := k } :: assignRanks (k + 1) rs

/-- `CoreOptimizer.optimize_pareto` (`optimizer.py` lines 225–257): sweep the
budget over `n_solutions` evenly spaced values from 30% to 100% of
`budget_limit`, solve the risk-reduction-maximizing problem at each, filter
out dominated solutions, and rank the survivors 1..k in order. -/
def optimize_pareto (strategies : List Strategy) (budget_limit : ℚ)
    (timeline_limit : ℚ) (n_solutions : ℕ) : List OptimizationResult :=
  let sols := (linspace (budget_limit * (3/10)) budget_limit n_solutions).map
    (fun b => optimize_single_objective strategies .risk_reduction b timeline_limit)
  assignRanks 1 (filterDominated sols)

/-! ## Monte Carlo analysis (`optimizer.py` lines 283–323) -/

/-- Ascending stable insertion used by `sortAsc`. -/
def insertAsc (x : ℚ) : List ℚ → List ℚ
  | [] => [x]
  | y :: ys => if x ≤ y then x :: y :: ys else y :: insertAsc x ys

/-- Ascending sort of rationals (used by the percentile computation). -/
def sortAsc : List ℚ → List ℚ
  | [] => []
  | x :: xs => insertAsc x (sortAsc xs)

/-- `numpy.percentile(a, q)` with the default linear interpolation: sort the
samples, take position `q/100 · (n-1)` and interpolate between the two
neighbouring order statistics.  (`numpy` raises on an empty array; the code
only calls this with `n_simulations ≥ 1` samples, so the 0 returned here for
the empty list is unreachable in the embedded call sites.) -/
def percentile (l : List ℚ) (q : ℚ) : ℚ :=
  let sorted := sortAsc l
  let n := sorted.length
  if n = 0 then 0
  else
    let pos : ℚ := q / 100 * ((n : ℚ) - 1)
    let i : ℕ := (⌊pos⌋).toNat
    let g : ℚ := pos - (⌊pos⌋ : ℚ)
    let lo := sorted.getD i 0
    let hi := sorted.getD (min (i + 1) (n - 1)) 0
    lo + g * (hi - lo)

/-- `CoreOptimizer.monte_carlo_analysis` (`optimizer.py` lines 283–323).
The random draws (triangular cost sample and normal risk sample per strategy
per simulation) are supplied as the stream `draws i j = (cost, risk)` for
simulation `i` and the `j`-th selected strategy.  Per simulation the costs
are summed and the risks are summed and capped at 95; the 5th/95th
percentiles over all simulations are written into the result's percentile
fields.  No other field is touched. -/
def monte_carlo_analysis (result : OptimizationResult) (n_simulations : ℕ)
    (draws : ℕ → ℕ → ℚ × ℚ) : OptimizationResult :=
  let m := result.selected_strategies.length
  let costSample := fun (i : ℕ) => ((List.range m).map (fun j => (draws i j).1)).sum
  let riskSample := fun (i : ℕ) =>
    min (((List.range m).map (fun j => (draws i j).2)).sum) 95
  let cost_samples := (List.range n_simulations).map costSample
  let risk_samples := (List.range n_simulations).map riskSample
  { result with
    cost_p5 := percentile cost_samples 5
    cost_p95 := percentile cost_samples 95
    risk_reduction_p5 := percentile risk_samples 5
    risk_reduction_p95 := percentile risk_samples 95 }

/-! ## Optimal portfolio selection (`optimizer.py` lines 354–393) -/

/-- Python `min(list, key=f)`: scan left to right, keeping the first element
whose key is strictly smaller than the incumbent's. -/
def pickMinBy (f : OptimizationResult → ℚ) :
    OptimizationResult → List OptimizationResult → OptimizationResult
  | b, [] => b
  | b, y :: ys => pickMinBy f (if f y < f b then y else b) ys

/-- Python `max(list, key=f)`: scan left to right, keeping the first element
whose key is strictly larger than the incumbent's. -/
def pickMaxBy (f : OptimizationResult → ℚ) :
    OptimizationResult → List OptimizationResult → OptimizationResult
  | b, [] => b
  | b, y :: ys => pickMaxBy f (if f b < f y then y else b) ys

/-- The empty portfolio returned for an empty Pareto frontier
(`optimizer.py` lines 368–374). -/
def emptyResult : OptimizationResult :=
  { selected_strategies := []
    total_cost := 0
    total_risk_reduction := 0
    total_timeline_days := 0 }

/-- `CoreOptimizer.get_optimal_portfolio` (`optimizer.py` lines 354–393):
compute the Pareto frontier (with the source's fixed `n_solutions = 10`),
return the empty portfolio if it is empty, otherwise pick max risk reduction
(`"aggressive"`), min cost (`"conservative"`) or best risk/cost
cost-effectiveness with a zero-cost guard (any other string: the `else`
branch), and finish with Monte Carlo analysis (the source's fixed
`n_simulations = 1000`) on the chosen point. -/
def get_optimal_portfolio (strategies : List Strategy) (budget_limit : ℚ)
    (timeline_limit : ℚ) (risk_tolerance : String)
    (draws : ℕ → ℕ → ℚ × ℚ) : OptimizationResult :=
  match optimize_pareto strategies budget_limit timeline_limit 10 with
  | [] => emptyResult
  | p :: ps =>
    let selected :=
      if risk_tolerance = "aggressive" then
        pickMaxBy (fun x => x.total_risk_reduction) p ps
      else if risk_tolerance = "conservative" then
        pickMinBy (fun x => x.total_cost) p ps
      else
        pickMaxBy (fun x =>
          if 0 < x.total_cost then x.total_risk_reduction / x.total_cost else 0) p ps
    monte_carlo_analysis selected 1000 draws

/-! ## Sensitivity analysis (`optimizer.py` lines 325–352) -/

/-- The attribute name `f"{parameter}_estimate"` perturbed by
`sensitivity_analysis`: the `Strategy` estimate fields are `cost_estimate`
and `time_estimate`. -/
inductive SensParam where
  | cost
  | time
deriving DecidableEq

/-- `getattr(strategy, f"{parameter}_estimate", ...)`. -/
def getParamEstimate (s : Strategy) : SensParam → ℚ
  | .cost => s.cost_estimate
  | .time => s.time_estimate

/-- `setattr(strategy, f"{parameter}_estimate", v)`. -/
def setParamEstimate (s : Strategy) : SensParam → ℚ → Strategy
  | .cost, v => { s with cost_estimate := v }
  | .time, v => { s with time_estimate := v }

/-- `CoreOptimizer.sensitivity_analysis` (`optimizer.py` lines 325–352).
The optimizer's shared catalog is threaded as explicit state; the portfolio's
selected strategies are identified by their positions `selectedIdx` in the
catalog (Python mutates the catalog objects through those aliases).
Per selected strategy: save the original estimate, bump it by 20% in place,
re-run the risk-reduction optimization at budget
`sum(s.cost_estimate for s in self.strategies)` (evaluated on the perturbed
catalog, as the source does), record the zero-guarded relative change against
`base_value`, and write the original estimate back.  Returns the sensitivity
mapping and the final catalog state. -/
def sensitivity_analysis (strategies : List Strategy) (selectedIdx : List ℕ)
    (param : SensParam) (base_value : ℚ) : List (String × ℚ) × List Strategy :=
  match selectedIdx with
  | [] => ([], strategies)
  | i :: rest =>
    let s := strategies.getD i default
    let original := getParamEstimate s param
    let perturbed := strategies.set i (setParamEstimate s param (original * (12/10)))
    let new_result :=
      optimize_single_objective perturbed .risk_reduction (listCost perturbed) 365
    let sens :=
      if 0 < base_value then (new_result.total_risk_reduction - base_value) / base_value
      else 0
    let s2 := perturbed.getD i default
    let restored := perturbed.set i (setParamEstimate s2 param original)
    let tail := sensitivity_analysis restored rest param base_value
    ((s.id, sens) :: tail.1, tail.2)

/-! ## War gaming data model (`adversarial/war_gaming.py` lines 33–91) -/

/-- `AttackType` enum (`war_gaming.py` lines 33–41). -/
inductive AttackType where
  | cost_overrun
  | timeline_delay
  | strategy_failure
  | budget_cut
  | key_person_leaves
  | new_risk_emerges
  | vendor_delay
  | regulatory_change
deriving DecidableEq, Inhabited

/-- The `Attack` dataclass (`war_gaming.py` lines 44–55). -/
structure Attack where
  attack_type : AttackType
  description : String
  severity : String
  probability : ℚ
  affected_strategies : List String := []
  impact_multiplier : ℚ := 1
  impact_absolute : ℚ := 0
deriving DecidableEq, Inhabited

/-- The outcome snapshot dict built by `apply_attack`
(`war_gaming.py` lines 202–207): keys `cost`, `risk_reduction`, `timeline`,
`strategies`. -/
structure Outcome where
  cost : ℚ
  risk_reduction : ℚ
  timeline : ℚ
  strategies : ℤ
deriving DecidableEq, Inhabited

/-- The `AttackResult` dataclass (`war_gaming.py` lines 58–69); the `damage`
dict is modelled as an association list. -/
structure AttackResult where
  attack : Attack
  original_outcome : Outcome
  degraded_outcome : Outcome
  damage : List (String × ℚ)
  outcome_degradation_pct : ℚ
  still_viable : Bool
  recovery_options : List String := []
deriving DecidableEq, Inhabited

/-- `RedTeam._build_attack_library` (`war_gaming.py` lines 105–164): the
fixed library of eight attack templates. -/
def attack_library : List Attack :=
  [ { attack_type := .cost_overrun
      description := "Costs are 50% higher than estimated"
      severity := "high", probability := 25/100, impact_multiplier := 15/10 }
  , { attack_type := .timeline_delay
      description := "Implementation takes 2x longer"
      severity := "medium", probability := 35/100, impact_multiplier := 2 }
  , { attack_type := .strategy_failure
      description := "Top strategy fails completely"
      severity := "high", probability := 15/100, impact_multiplier := 0 }
  , { attack_type := .budget_cut
      description := "Budget reduced by 40% mid-implementation"
      severity := "high", probability := 20/100, impact_absolute := -(40/100) }
  , { attack_type := .key_person_leaves
      description := "Project lead leaves mid-implementation"
      severity := "medium", probability := 15/100, impact_multiplier := 13/10 }
  , { attack_type := .new_risk_emerges
      description := "New critical risk discovered during implementation"
      severity := "medium", probability := 20/100, impact_absolute := 15/100 }
  , { attack_type := .vendor_delay
      description := "Key vendor delays equipment by 60 days"
      severity := "medium", probability := 30/100, impact_absolute := 60 }
  , { attack_type := .regulatory_change
      description := "New FAA requirement adds compliance work"
      severity := "low", probability := 10/100, impact_absolute := 50000 }
  ]

/-- Python `int(x)` on a float: truncation toward zero, as a rational. -/
def int_trunc (q : ℚ) : ℚ :=
  if 0 ≤ q then ((⌊q⌋ : ℤ) : ℚ) else -((⌊-q⌋ : ℤ) : ℚ)

/-- `RedTeam.apply_attack` (`war_gaming.py` lines 196–281): build the
original outcome snapshot from the portfolio, derive the degraded snapshot by
the attack-type-specific branch (no branch exists for `vendor_delay` and
`regulatory_change`, which therefore leave the snapshot untouched), then
compute the zero-guarded degradation percentage and the 50%-of-original
viability flag. -/
def apply_attack (portfolio : OptimizationResult) (attack : Attack) : AttackResult :=
  let original : Outcome :=
    { cost := portfolio.total_cost
      risk_reduction := portfolio.total_risk_reduction
      timeline := portfolio.total_timeline_days
      strategies := (portfolio.selected_strategies.length : ℤ) }
  let branch : Outcome × List (String × ℚ) × List String :=
    match attack.attack_type with
    | .cost_overrun =>
      let degraded := { original with cost := original.cost * attack.impact_multiplier }
      (degraded, [("cost_increase", degraded.cost - original.cost)],
        ["Request emergency budget allocation", "Reduce scope to high-priority items"])
    | .timeline_delay =>
      let degraded :=
        { original with timeline := int_trunc (original.timeline * attack.impact_multiplier) }
      (degraded, [("timeline_increase", degraded.timeline - original.timeline)],
        ["Add resources to accelerate", "Parallel execution where possible"])
    | .strategy_failure =>
      let failed := portfolio.selected_strategies.filter
        (fun s => decide (s.id ∈ attack.affected_strategies))
      let failed_reduction := listRisk failed
      let degraded :=
        { original with
          risk_reduction := max 0 (original.risk_reduction - failed_reduction)
          strategies := original.strategies - (failed.length : ℤ) }
      (degraded, [("risk_reduction_lost", failed_reduction)],
        ["Activate backup strategy from same category",
          "Reallocate budget to remaining strategies"])
    | .budget_cut =>
      let cut_amount := original.cost * |attack.impact_absolute|
      let degraded :=
        { original with
          cost := original.cost - cut_amount
          risk_reduction := original.risk_reduction * (1 - |attack.impact_absolute|) }
      (degraded, [("budget_cut", cut_amount)],
        ["Prioritize must-have strategies", "Defer nice-to-have to next quarter"])
    | .key_person_leaves =>
      let degraded :=
        { original with
          cost := original.cost * attack.impact_multiplier
          timeline := int_trunc (original.timeline * (12/10)) }
      (degraded,
        [("cost_increase", degraded.cost - original.cost),
          ("timeline_increase", degraded.timeline - original.timeline)],
        ["Cross-train backup lead immediately", "Document critical knowledge"])
    | .new_risk_emerges =>
      let degraded :=
        { original with
          risk_reduction := original.risk_reduction - attack.impact_absolute * 100 }
      (degraded, [("additional_risk", attack.impact_absolute * 100)],
        ["Add emergency mitigation strategy",
          "Reallocate resources from lower-priority items"])
    | .vendor_delay => (original, [], [])
    | .regulatory_change => (original, [], [])
  let degraded := branch.1
  let risk_degradation :=
    if 0 < original.risk_reduction then
      (original.risk_reduction - degraded.risk_reduction) / original.risk_reduction * 100
    else 0
  let still_viable :=
    decide (original.risk_reduction * (5/10) ≤ degraded.risk_reduction)
  { attack := attack
    original_outcome := original
    degraded_outcome := degraded
    damage := branch.2.1
    outcome_degradation_pct := risk_degradation
    still_viable := still_viable
    recovery_options := branch.2.2 }

/-! ## Robustness scoring (`war_gaming.py` lines 356–374, inside
`PurpleTeam.assess_robustness`) -/

/-- `total_degradation = sum(r.outcome_degradation_pct ...)` (line 357). -/
def total_degradation (results : List AttackResult) : ℚ :=
  (results.map (fun r => r.outcome_degradation_pct)).sum

/-- `avg_degradation` with the empty-list guard (line 358). -/
def avg_degradation (results : List AttackResult) : ℚ :=
  if results.length = 0 then 0 else total_degradation results / results.length

/-- `viability_rate`: the fraction of still-viable attack results, 1 for an
empty list (line 359). -/
def viability_rate (results : List AttackResult) : ℚ :=
  if results.length = 0 then 1
  else ((results.filter (fun r => r.still_viable)).length : ℚ) / results.length

/-- The robustness score (line 362):
`max(0, min(100, (100 - avg_degradation) * viability_rate))`. -/
def robustness_score (results : List AttackResult) : ℚ :=
  max 0 (min 100 ((100 - avg_degradation results) * viability_rate results))

/-- The grade thresholds (lines 365–374). -/
def resilience_rating (score : ℚ) : String :=
  if 85 ≤ score then "A"
  else if 70 ≤ score then "B"
  else if 55 ≤ score then "C"
  else if 40 ≤ score then "D"
  else "F"

/-- The spec's clamp: `clamp(x, lo, hi)` (spec §4.2 "Scoring"), stated from
the spec's words for comparison with the source's `max(0, min(100, ...))`. -/
def clampSpec (x lo hi : ℚ) : ℚ :=
  max lo (min hi x)

/-! ## Multi-horizon data model (`horizons/multi_horizon.py` lines 38–101) -/

/-- `Horizon` enum (`multi_horizon.py` lines 38–41). -/
inductive Horizon where
  | immediate
  | tactical
  | strategic
deriving DecidableEq, Inhabited

/-- The `HorizonConfig` dataclass (`multi_horizon.py` lines 44–62). -/
structure HorizonConfig where
  horizon : Horizon
  label : String
  min_days : ℚ
  max_days : ℚ
  budget_fraction_min : ℚ := 0
  budget_fraction_max : ℚ := 1
  budget_fraction_recommended : ℚ := 33/100
  preferred_categories : List StrategyCategory := []
  max_complexity : String := "high"
  primary_objective : String := "risk_reduction"
deriving Inhabited

/-- The `HorizonPlan` dataclass (`multi_horizon.py` lines 65–79). -/
structure HorizonPlan where
  horizon : Horizon
  strategies : List Strategy
  total_cost : ℚ
  risk_reduction : ℚ
  timeline_days : ℚ
  action_items : List String := []
  dependencies : List String := []
  decision_deadline : String := ""
deriving Inhabited

/-- The trade-off dict built by `_analyze_tradeoffs`
(`multi_horizon.py` lines 343–365), modelled as a structure with the dict's
keys as fields. -/
structure TradeoffAnalysis where
  quick_fix_value : ℚ
  quick_fix_cost : ℚ
  sustainable_value : ℚ
  sustainable_cost : ℚ
  quick_fix_cost_effectiveness : ℚ
  sustainable_cost_effectiveness : ℚ
  recommendation : String

/-- A phase dict from `_generate_phase_sequence`
(`multi_horizon.py` lines 381–432).  The formatted milestone f-string is
modelled by its numeric content `milestone_pct`. -/
structure Phase where
  phase : ℕ
  name : String
  horizon : String
  start_day : ℚ
  end_day : ℚ
  strategies : List String
  cost : ℚ
  expected_risk_reduction : ℚ
  milestone_pct : ℚ

/-- A dependency dict from `_identify_dependencies`
(`multi_horizon.py` lines 434–455). -/
structure Dependency where
  source_name : String
  target_name : String
  dep_type : String

/-- The `MultiHorizonPlan` dataclass (`multi_horizon.py` lines 82–101). -/
structure MultiHorizonPlan where
  immediate_plan : HorizonPlan
  tactical_plan : HorizonPlan
  strategic_plan : HorizonPlan
  total_cost : ℚ
  total_risk_reduction : ℚ
  immediate_vs_sustainable_tradeoff : TradeoffAnalysis
  phase_sequence : List Phase
  cross_horizon_dependencies : List Dependency

/-- `MultiHorizonOptimizer._configure_horizons`
(`multi_horizon.py` lines 136–175). -/
def horizon_config : Horizon → HorizonConfig
  | .immediate =>
    { horizon := .immediate
      label := "Immediate Actions (0-30 days)"
      min_days := 0, max_days := 30
      budget_fraction_min := 10/100, budget_fraction_max := 40/100
      budget_fraction_recommended := 25/100
      preferred_categories := [.process, .policy]
      max_complexity := "low", primary_objective := "quick_wins" }
  | .tactical =>
    { horizon := .tactical
      label := "Tactical Improvements (30-180 days)"
      min_days := 30, max_days := 180
      budget_fraction_min := 30/100, budget_fraction_max := 50/100
      budget_fraction_recommended := 45/100
      preferred_categories := [.training, .maintenance]
      max_complexity := "medium", primary_objective := "risk_reduction" }
  | .strategic =>
    { horizon := .strategic
      label := "Strategic Investments (180+ days)"
      min_days := 180, max_days := 730
      budget_fraction_min := 20/100, budget_fraction_max := 50/100
      budget_fraction_recommended := 30/100
      preferred_categories := [.technology]
      max_complexity := "high", primary_objective := "transformation" }

/-! ## Strategy classification (`multi_horizon.py` lines 177–203) -/

/-- The per-strategy body of `MultiHorizonOptimizer._classify_strategies`
(`multi_horizon.py` lines 180–201): append Immediate, Tactical, Strategic in
order when their conditions hold, add Strategic for technology strategies if
not already present, and default to Tactical when nothing matched. -/
def classifyStrategy (s : Strategy) : List Horizon :=
  let suitable :=
    (if s.time_estimate ≤ 30 ∧ s.cost_estimate < 50000 then [Horizon.immediate] else [])
    ++ (if 14 ≤ s.time_estimate ∧ s.time_estimate ≤ 180 then [Horizon.tactical] else [])
    ++ (if 60 ≤ s.time_estimate ∨ 200000 ≤ s.cost_estimate then [Horizon.strategic] else [])
  let suitable2 :=
    if s.category = .technology ∧ Horizon.strategic ∉ suitable then
      suitable ++ [Horizon.strategic]
    else suitable
  if suitable2 = [] then [Horizon.tactical] else suitable2

/-- The classification dict `self.strategy_horizons` with the lookup
`.get(s.id, [])` (`multi_horizon.py` lines 201, 219): the dict is keyed by
strategy id, so for duplicate ids the last catalog entry wins; a missing id
yields `[]`. -/
def horizonsOfId (catalog : List Strategy) (sid : String) : List Horizon :=
  match (catalog.filter (fun t => decide (t.id = sid))).getLast? with
  | some t => classifyStrategy t
  | none => []

/-! ## Per-horizon optimization (`multi_horizon.py` lines 205–262) -/

/-- `priority_score` (`multi_horizon.py` lines 224–227): risk reduction per
unit cost (zero-guarded), times a 1.5 bonus for the horizon's preferred
categories. -/
def priority_score (config : HorizonConfig) (s : Strategy) : ℚ :=
  let category_bonus : ℚ := if s.category ∈ config.preferred_categories then 15/10 else 1
  let efficiency : ℚ :=
    if 0 < s.cost_estimate then s.risk_reduction_pct / s.cost_estimate else 0
  efficiency * category_bonus

/-- Stable descending insertion by key `f` (used by `sortDescBy`). -/
def insertDesc (f : Strategy → ℚ) (x : Strategy) : List Strategy → List Strategy
  | [] => [x]
  | y :: ys => if f y ≤ f x then x :: y :: ys else y :: insertDesc f x ys

/-- `list.sort(key=f, reverse=True)`: Python's stable sort, descending by
key.  Stable insertion sort places each element before the first later
element with a key not larger than its own, preserving the original order of
equal keys exactly as CPython's stable sort does. -/
def sortDescBy (f : Strategy → ℚ) : List Strategy → List Strategy
  | [] => []
  | x :: xs => insertDesc f x (sortDescBy f xs)

/-- The greedy selection loop (`multi_horizon.py` lines 232–238): walk the
ranked list, adding each strategy whose cost still fits the remaining
budget. -/
def greedySelect (budget : ℚ) : List Strategy → ℚ → List Strategy
  | [], _ => []
  | s :: rest, running =>
    if running + s.cost_estimate ≤ budget then
      s :: greedySelect budget rest (running + s.cost_estimate)
    else
      greedySelect budget rest running

/-- `_get_decision_deadline` (`multi_horizon.py` lines 264–271). -/
def decision_deadline : Horizon → String
  | .immediate => "Decision required: TODAY"
  | .tactical => "Decision required: This week"
  | .strategic => "Decision required: This quarter"

/-- `MultiHorizonOptimizer.optimize_horizon` (`multi_horizon.py` lines
205–262): filter the catalog to strategies eligible for this horizon, not
already consumed, and fitting the horizon's `max_days`; rank by
`priority_score` (stable descending); greedily select within the horizon
budget; and assemble the plan with the per-horizon risk-reduction cap of 50.
The action-item labels carry the source's text (emoji prefixes omitted);
the loop's running `total_cost` equals the summed cost of the selection. -/
def optimize_horizon (catalog : List Strategy) (horizon : Horizon)
    (budget : ℚ) (excluded : List String) : HorizonPlan :=
  let config := horizon_config horizon
  let suitable := catalog.filter (fun s =>
    decide (s.id ∉ excluded) &&
    decide (horizon ∈ horizonsOfId catalog s.id) &&
    decide (s.time_estimate ≤ config.max_days))
  let ranked := sortDescBy (priority_score config) suitable
  let selected := greedySelect budget ranked 0
  let action_items := selected.map (fun s =>
    match horizon with
    | .immediate => "START NOW: " ++ s.name
    | .tactical => "PLAN Q1/Q2: " ++ s.name
    | .strategic => "BUDGET FY: " ++ s.name)
  { horizon := horizon
    strategies := selected
    total_cost := listCost selected
    risk_reduction := min (listRisk selected) 50
    timeline_days := listTimeMax selected
    action_items := action_items
    decision_deadline := decision_deadline horizon }

/-! ## Cross-horizon assembly (`multi_horizon.py` lines 273–455) -/

/-- `_tradeoff_recommendation` (`multi_horizon.py` lines 367–379). -/
def tradeoff_recommendation (risk_score : ℚ) : String :=
  if 75 ≤ risk_score then
    "URGENT: Prioritize immediate actions, then tactical. Risk is critical."
  else if 50 ≤ risk_score then
    "BALANCED: Execute immediate actions for quick wins, invest heavily in tactical for sustainability."
  else
    "STRATEGIC: Focus on long-term improvements. Immediate risk is manageable."

/-- `_analyze_tradeoffs` (`multi_horizon.py` lines 343–365). -/
def analyze_tradeoffs (risk_score : ℚ)
    (immediate tactical strategic : HorizonPlan) : TradeoffAnalysis :=
  { quick_fix_value := immediate.risk_reduction
    quick_fix_cost := immediate.total_cost
    sustainable_value := tactical.risk_reduction + strategic.risk_reduction
    sustainable_cost := tactical.total_cost + strategic.total_cost
    quick_fix_cost_effectiveness :=
      if 0 < immediate.total_cost then
        immediate.risk_reduction / immediate.total_cost * 1000
      else 0
    sustainable_cost_effectiveness :=
      if 0 < tactical.total_cost + strategic.total_cost then
        (tactical.risk_reduction + strategic.risk_reduction) /
          (tactical.total_cost + strategic.total_cost) * 1000
      else 0
    recommendation := tradeoff_recommendation risk_score }

/-- `_generate_phase_sequence` (`multi_horizon.py` lines 381–432). -/
def generate_phase_sequence
    (immediate tactical strategic : HorizonPlan) : List Phase :=
  (if immediate.strategies ≠ [] then
    [{ phase := 1, name := "Crisis Response / Quick Wins", horizon := "immediate"
       start_day := 0, end_day := 30
       strategies := immediate.strategies.map (fun s => s.name)
       cost := immediate.total_cost
       expected_risk_reduction := immediate.risk_reduction
       milestone_pct := immediate.risk_reduction }]
  else []) ++
  (if tactical.strategies ≠ [] then
    [{ phase := 2, name := "Systematic Improvement", horizon := "tactical"
       start_day := 30, end_day := 180
       strategies := tactical.strategies.map (fun s => s.name)
       cost := tactical.total_cost
       expected_risk_reduction := tactical.risk_reduction
       milestone_pct := immediate.risk_reduction + tactical.risk_reduction }]
  else []) ++
  (if strategic.strategies ≠ [] then
    [{ phase := 3, name := "Transformational Investment", horizon := "strategic"
       start_day := 180, end_day := 365
       strategies := strategic.strategies.map (fun s => s.name)
       cost := strategic.total_cost
       expected_risk_reduction := strategic.risk_reduction
       milestone_pct := immediate.risk_reduction + tactical.risk_reduction +
         strategic.risk_reduction }]
  else [])

/-- `_identify_dependencies` (`multi_horizon.py` lines 434–455): a
`requires_training` edge for every Strategic technology strategy crossed with
every Tactical training strategy, in nested-loop order. -/
def identify_dependencies (tactical strategic : HorizonPlan) : List Dependency :=
  (strategic.strategies.filter (fun s => decide (s.category = .technology))).flatMap
    (fun sstrat =>
      (tactical.strategies.filter (fun t => decide (t.category = .training))).map
        (fun tstrat =>
          { source_name := sstrat.name
            target_name := tstrat.name
            dep_type := "requires_training" }))

/-- `MultiHorizonOptimizer.optimize_all_horizons`
(`multi_horizon.py` lines 273–341): optimize Immediate, then Tactical
excluding Immediate's selected ids, then Strategic excluding both; total the
costs, cap total risk reduction at 95, and assemble trade-offs, phases and
dependencies.  The three budgets are the per-horizon allocation (the caller's
custom dict, or the default fractions via `optimize_all_horizons_default`). -/
def optimize_all_horizons (catalog : List Strategy) (risk_score : ℚ)
    (budgetImmediate budgetTactical budgetStrategic : ℚ) : MultiHorizonPlan :=
  let immediate := optimize_horizon catalog .immediate budgetImmediate []
  let used1 := immediate.strategies.map (fun s => s.id)
  let tactical := optimize_horizon catalog .tactical budgetTactical used1
  let used2 := used1 ++ tactical.strategies.map (fun s => s.id)
  let strategic := optimize_horizon catalog .strategic budgetStrategic used2
  { immediate_plan := immediate
    tactical_plan := tactical
    strategic_plan := strategic
    total_cost := immediate.total_cost + tactical.total_cost + strategic.total_cost
    total_risk_reduction :=
      min (immediate.risk_reduction + tactical.risk_reduction + strategic.risk_reduction) 95
    immediate_vs_sustainable_tradeoff :=
      analyze_tradeoffs risk_score immediate tactical strategic
    phase_sequence := generate_phase_sequence immediate tactical strategic
    cross_horizon_dependencies := identify_dependencies tactical strategic }

/-- `optimize_all_horizons` with the default budget allocation
(`multi_horizon.py` lines 284–289): 25% / 45% / 30% of the total budget. -/
def optimize_all_horizons_default (catalog : List Strategy) (risk_score : ℚ)
    (total_budget : ℚ) : MultiHorizonPlan :=
  optimize_all_horizons catalog risk_score
    (total_budget * (25/100)) (total_budget * (45/100)) (total_budget * (30/100))

/-- The selected strategy ids of a horizon plan. -/
def planIds (plan : HorizonPlan) : List String :=
  plan.strategies.map (fun s => s.id)

/-! ## Helper lemmas: the single-objective solver -/

theorem mem_subsets_subset {l sub : List Strategy} (h : sub ∈ subsets l) :
    ∀ x ∈ sub, x ∈ l := by
  induction l generalizing sub with
  | nil =>
    simp only [subsets, List.mem_singleton] at h
    subst h; intro x hx; exact absurd hx (List.not_mem_nil x)
  | cons s rest ih =>
    simp only [subsets, List.mem_append, List.mem_map] at h
    rcases h with h | ⟨sub2, hsub2, rfl⟩
    · intro x hx; exact List.mem_cons_of_mem s (ih h x hx)
    · intro x hx
      rcases List.mem_cons.mp hx with rfl | hx2
      · exact List.mem_cons_self x rest
      · exact List.mem_cons_of_mem s (ih hsub2 x hx2)

theorem nil_mem_subsets (l : List Strategy) : [] ∈ subsets l := by
  induction l with
  | nil => simp [subsets]
  | cons s rest ih => simp only [subsets, List.mem_append]; exact Or.inl ih

theorem pickBest_mem {obj : Objective} {cs : List (List Strategy)}
    {s : List Strategy} (h : pickBest obj cs = some s) : s ∈ cs := by
  induction cs with
  | nil => simp [pickBest] at h
  | cons c rest ih =>
    simp only [pickBest] at h
    cases hr : pickBest obj rest with
    | none => rw [hr] at h; simp at h; subst h; exact List.mem_cons_self c rest
    | some b =>
      rw [hr] at h
      by_cases hcb : objBetter obj c b
      · simp [hcb] at h; subst h; exact List.mem_cons_self c rest
      · simp [hcb] at h; subst h; exact List.mem_cons_of_mem c (ih hr)

theorem pickBest_eq_none_iff {obj : Objective} {cs : List (List Strategy)} :
    pickBest obj cs = none ↔ cs = [] := by
  cases cs with
  | nil => simp [pickBest]
  | cons c rest =>
    simp only [pickBest]
    cases hr : pickBest obj rest with
    | none => simp
    | some b => by_cases hcb : objBetter obj c b <;> simp [hcb]

theorem listCost_nonneg {l : List Strategy}
    (h : ∀ s ∈ l, 0 ≤ s.cost_estimate) : 0 ≤ listCost l := by
  induction l with
  | nil => simp [listCost]
  | cons s rest ih =>
    simp only [listCost, List.map_cons, List.sum_cons]
    have h1 : 0 ≤ s.cost_estimate := h s (List.mem_cons_self s rest)
    have h2 : 0 ≤ listCost rest := ih (fun t ht => h t (List.mem_cons_of_mem s ht))
    simpa [listCost] using add_nonneg h1 h2

/-- The selected subset of `optimize_single_objective` is either empty or a
feasible member of the candidate space. -/
theorem single_obj_selected_cases (strategies : List Strategy) (obj : Objective)
    (b tl : ℚ) :
    (optimize_single_objective strategies obj b tl).selected_strategies = [] ∨
    ((optimize_single_objective strategies obj b tl).selected_strategies ∈
        subsets strategies ∧
      listCost ((optimize_single_objective strategies obj b tl).selected_strategies) ≤ b) := by
  simp only [optimize_single_objective]
  cases hp : pickBest obj ((subsets strategies).filter
      (fun sub => decide (listCost sub ≤ b))) with
  | none => left; simp
  | some sub =>
    right
    have hmem := pickBest_mem hp
    have := List.mem_filter.mp hmem
    simp only [Option.getD_some]
    exact ⟨this.1, of_decide_eq_true this.2⟩

/-! ## Helper lemmas: linspace and the Pareto frontier -/

theorem linspace_mem_le {a b x : ℚ} {n : ℕ} (hab : a ≤ b)
    (hx : x ∈ linspace a b n) : x ≤ b := by
  rcases n with _ | _ | m
  · simp [linspace] at hx
  · simp only [linspace, List.mem_singleton] at hx
    exact hx ▸ hab
  ·
    simp only [linspace] at hx
    rw [List.mem_map] at hx
    obtain ⟨i, hi, rfl⟩ := hx
    rw [List.mem_range] at hi
    have hba : (0 : ℚ) ≤ b - a := by linarith
    have hm1 : (0 : ℚ) < (m : ℚ) + 1 := by positivity
    have hile : (i : ℚ) ≤ (m : ℚ) + 1 := by
      have h2 : i ≤ m + 1 := by omega
      exact_mod_cast h2
    have hnum : (i : ℚ) * (b - a) ≤ ((m : ℚ) + 1) * (b - a) :=
      mul_le_mul_of_nonneg_right hile hba
    have hdiv : (i : ℚ) * (b - a) / ((m : ℚ) + 1) ≤ b - a := by
      rw [div_le_iff₀ hm1]
      calc (i : ℚ) * (b - a) ≤ ((m : ℚ) + 1) * (b - a) := hnum
        _ = (b - a) * ((m : ℚ) + 1) := by ring
    linarith

theorem assignRanks_mem {k : ℕ} {l : List OptimizationResult}
    {r : OptimizationResult} (h : r ∈ assignRanks k l) :
    ∃ r2 ∈ l, r.total_cost = r2.total_cost ∧
      r.total_risk_reduction = r2.total_risk_reduction ∧
      r.total_timeline_days = r2.total_timeline_days ∧
      r.selected_strategies = r2.selected_strategies := by
  induction l generalizing k with
  | nil => simp [assignRanks] at h
  | cons r2 rest ih =>
    simp only [assignRanks, List.mem_cons] at h
    rcases h with rfl | h
    · exact ⟨r2, List.mem_cons_self r2 rest, rfl, rfl, rfl, rfl⟩
    · obtain ⟨r3, hr3, he⟩ := ih h
      exact ⟨r3, List.mem_cons_of_mem r2 hr3, he⟩

theorem assignRanks_length (k : ℕ) (l : List OptimizationResult) :
    (assignRanks k l).length = l.length := by
  induction l generalizing k with
  | nil => rfl
  | cons r rest ih => simp [assignRanks, ih]

theorem assignRanks_get_rank (k : ℕ) (l : List OptimizationResult) (i : ℕ)
    (hi : i < (assignRanks k l).length) :
    ((assignRanks k l).get ⟨i, hi⟩).pareto_rank = k + i := by
  induction l generalizing k i with
  | nil => simp [assignRanks] at hi
  | cons r rest ih =>
    cases i with
    | zero => simp [assignRanks]
    | succ j =>
      have hj : j < (assignRanks (k + 1) rest).length := by
        simpa [assignRanks, Nat.succ_lt_succ_iff] using hi
      have := ih (k + 1) j hj
      simp only [assignRanks, List.get_cons_succ]
      rw [this]
      omega

theorem filterDominated_not_dominated {sols : List OptimizationResult}
    {sol other : OptimizationResult} (hsol : sol ∈ filterDominated sols)
    (hother : other ∈ sols) : dominatesB other sol = false := by
  have h2 := (List.mem_filter.mp hsol).2
  simp only [Bool.not_eq_true', List.any_eq_false] at h2
  rw [← Bool.not_eq_true]
  exact h2 other hother

theorem pareto_mem_cost_le {strategies : List Strategy} {b tl : ℚ} {n : ℕ}
    {r : OptimizationResult} (hb : 0 ≤ b)
    (hr : r ∈ optimize_pareto strategies b tl n) : r.total_cost ≤ b := by
  simp only [optimize_pareto] at hr
  obtain ⟨r2, hr2, hcost, _, _, _⟩ := assignRanks_mem hr
  have hr2s := List.mem_of_mem_filter hr2
  simp only [List.mem_map] at hr2s
  obtain ⟨bu, hbu, rfl⟩ := hr2s
  have hbub : bu ≤ b := by
    refine linspace_mem_le ?_ hbu
    nlinarith
  rcases single_obj_selected_cases strategies .risk_reduction bu tl with hsel | ⟨_, hle⟩
  · rw [hcost]
    simp only [optimize_single_objective] at hsel ⊢
    rw [hsel]
    simpa [listCost] using hb
  · rw [hcost]
    calc (optimize_single_objective strategies .risk_reduction bu tl).total_cost
        = listCost (optimize_single_objective strategies .risk_reduction bu tl).selected_strategies := rfl
      _ ≤ bu := hle
      _ ≤ b := hbub

/-! ## Helper lemmas: Monte Carlo analysis and the selection rules -/

@[simp] theorem monte_carlo_total_cost (r : OptimizationResult) (n : ℕ)
    (draws : ℕ → ℕ → ℚ × ℚ) :
    (monte_carlo_analysis r n draws).total_cost = r.total_cost := rfl

@[simp] theorem monte_carlo_total_risk (r : OptimizationResult) (n : ℕ)
    (draws : ℕ → ℕ → ℚ × ℚ) :
    (monte_carlo_analysis r n draws).total_risk_reduction =
      r.total_risk_reduction := rfl

@[simp] theorem monte_carlo_selected (r : OptimizationResult) (n : ℕ)
    (draws : ℕ → ℕ → ℚ × ℚ) :
    (monte_carlo_analysis r n draws).selected_strategies =
      r.selected_strategies := rfl

theorem pickMinBy_le (f : OptimizationResult → ℚ) :
    ∀ (l : List OptimizationResult) (b x : OptimizationResult),
      x ∈ b :: l → f (pickMinBy f b l) ≤ f x := by
  intro l
  induction l with
  | nil =>
    intro b x hx
    rcases List.mem_cons.mp hx with rfl | hx2
    · exact le_refl _
    · exact absurd hx2 (List.not_mem_nil x)
  | cons y ys ih =>
    intro b x hx
    simp only [pickMinBy]
    have hb' : f (if f y < f b then y else b) ≤ f b ∧
        f (if f y < f b then y else b) ≤ f y := by
      by_cases h : f y < f b
      · rw [if_pos h]; exact ⟨le_of_lt h, le_refl _⟩
      · rw [if_neg h]; exact ⟨le_refl _, le_of_not_lt h⟩
    rcases List.mem_cons.mp hx with rfl | hx2
    · exact le_trans (ih _ _ (List.mem_cons_self _ _)) hb'.1
    · rcases List.mem_cons.mp hx2 with rfl | hx3
      · exact le_trans (ih _ _ (List.mem_cons_self _ _)) hb'.2
      · exact ih _ _ (List.mem_cons_of_mem _ hx3)

theorem pickMaxBy_mem (f : OptimizationResult → ℚ) :
    ∀ (l : List OptimizationResult) (b : OptimizationResult),
      pickMaxBy f b l ∈ b :: l := by
  intro l
  induction l with
  | nil => intro b; simp [pickMaxBy]
  | cons y ys ih =>
    intro b
    simp only [pickMaxBy]
    have := ih (if f b < f y then y else b)
    rcases List.mem_cons.mp this with heq | hmem
    · rw [heq]
      by_cases h : f b < f y
      · simp only [h, if_true]
        exact List.mem_cons_of_mem b (List.mem_cons_self y ys)
      · simp only [h, if_false]
        exact List.mem_cons_self b (y :: ys)
    · exact List.mem_cons_of_mem b (List.mem_cons_of_mem y hmem)

theorem pickMinBy_mem (f : OptimizationResult → ℚ) :
    ∀ (l : List OptimizationResult) (b : OptimizationResult),
      pickMinBy f b l ∈ b :: l := by
  intro l
  induction l with
  | nil => intro b; simp [pickMinBy]
  | cons y ys ih =>
    intro b
    simp only [pickMinBy]
    have := ih (if f y < f b then y else b)
    rcases List.mem_cons.mp this with heq | hmem
    · rw [heq]
      by_cases h : f y < f b
      · simp only [h, if_true]
        exact List.mem_cons_of_mem b (List.mem_cons_self y ys)
      · simp only [h, if_false]
        exact List.mem_cons_self b (y :: ys)
    · exact List.mem_cons_of_mem b (List.mem_cons_of_mem y hmem)

/-- Whatever the risk-tolerance string, the portfolio chosen inside
`get_optimal_portfolio` before Monte Carlo analysis is a member of the
Pareto frontier; hence the returned portfolio's cost is bounded by the
frontier's costs whenever the frontier is nonempty. -/
theorem get_optimal_cost_le {strategies : List Strategy} {b tl : ℚ}
    (hb : 0 ≤ b) (risk_tolerance : String) (draws : ℕ → ℕ → ℚ × ℚ) :
    (get_optimal_portfolio strategies b tl risk_tolerance draws).total_cost ≤ b := by
  unfold get_optimal_portfolio
  generalize hp : optimize_pareto strategies b tl 10 = pareto
  cases pareto with
  | nil => simpa [emptyResult] using hb
  | cons p ps =>
    have hmem : ∀ r ∈ p :: ps, r.total_cost ≤ b := by
      intro r hr
      exact pareto_mem_cost_le hb (hp ▸ hr)
    by_cases ha : risk_tolerance = "aggressive"
    · simp only [ha, if_true, monte_carlo_total_cost]
      exact hmem _ (pickMaxBy_mem _ ps p)
    · by_cases hc : risk_tolerance = "conservative"
      · simp only [ha, hc, if_false, if_true, monte_carlo_total_cost]
        exact hmem _ (pickMinBy_mem _ ps p)
      · simp only [ha, hc, if_false, monte_carlo_total_cost]
        exact hmem _ (pickMaxBy_mem _ ps p)

/-! ## Further helper lemmas for the claim theorems -/

theorem single_obj_total_cost_eq (strategies : List Strategy) (obj : Objective)
    (b tl : ℚ) :
    (optimize_single_objective strategies obj b tl).total_cost =
      listCost (optimize_single_objective strategies obj b tl).selected_strategies := rfl

theorem dominatesB_congr {p q p2 q2 : OptimizationResult}
    (h1 : p.total_risk_reduction = p2.total_risk_reduction)
    (h2 : p.total_cost = p2.total_cost)
    (h3 : p.total_timeline_days = p2.total_timeline_days)
    (h4 : q.total_risk_reduction = q2.total_risk_reduction)
    (h5 : q.total_cost = q2.total_cost)
    (h6 : q.total_timeline_days = q2.total_timeline_days) :
    dominatesB p q = dominatesB p2 q2 := by
  unfold dominatesB
  rw [h1, h2, h3, h4, h5, h6]

/-- Under nonnegative costs, a feasible candidate subset for a budget below
every individual strategy cost must be empty. -/
theorem feasible_all_nil {strategies : List Strategy} {b : ℚ}
    (hc : ∀ s ∈ strategies, 0 ≤ s.cost_estimate)
    (hball : ∀ s ∈ strategies, b < s.cost_estimate) :
    ∀ sub ∈ (subsets strategies).filter (fun sub => decide (listCost sub ≤ b)),
      sub = [] := by
  intro sub hsub
  have hmem := List.mem_filter.mp hsub
  have hle : listCost sub ≤ b := of_decide_eq_true hmem.2
  cases sub with
  | nil => rfl
  | cons x rest =>
    exfalso
    have hsubset := mem_subsets_subset hmem.1
    have hx : x ∈ strategies := hsubset x (List.mem_cons_self x rest)
    have hrest : 0 ≤ listCost rest :=
      listCost_nonneg (fun s hs => hc s (hsubset s (List.mem_cons_of_mem x hs)))
    have hcost : listCost (x :: rest) = x.cost_estimate + listCost rest := by
      simp [listCost]
    have hbx : b < x.cost_estimate := hball x hx
    rw [hcost] at hle
    linarith

/-! ## Claim C1 -/

/-- C1: for a catalog with non-negative cost estimates and any (non-negative,
per spec §6) budget limit, the portfolio produced by
`optimize_single_objective` — and hence by the `optimize` entry point
`get_optimal_portfolio`, for every risk tolerance — has `total_cost` at most
the budget limit; and when no single strategy fits the budget the result is
the empty portfolio: no selected strategies, zero cost, zero risk
reduction, rather than an error. -/
theorem c1_optimize_respects_budget (strategies : List Strategy)
    (obj : Objective) (budget_limit timeline_limit : ℚ)
    (hb : 0 ≤ budget_limit) :
    (optimize_single_objective strategies obj budget_limit
        timeline_limit).total_cost ≤ budget_limit ∧
    (∀ (risk_tolerance : String) (draws : ℕ → ℕ → ℚ × ℚ),
      (get_optimal_portfolio strategies budget_limit timeline_limit
          risk_tolerance draws).total_cost ≤ budget_limit) ∧
    ((∀ s ∈ strategies, 0 ≤ s.cost_estimate) →
      (∀ s ∈ strategies, budget_limit < s.cost_estimate) →
      (optimize_single_objective strategies obj budget_limit
          timeline_limit).selected_strategies = [] ∧
      (optimize_single_objective strategies obj budget_limit
          timeline_limit).total_cost = 0 ∧
      (optimize_single_objective strategies obj budget_limit
          timeline_limit).total_risk_reduction = 0) := by
  refine ⟨?_, ?_, ?_⟩
  · rcases single_obj_selected_cases strategies obj budget_limit timeline_limit with
      hsel | ⟨_, hle⟩
    · rw [single_obj_total_cost_eq, hsel]
      simpa [listCost] using hb
    · rw [single_obj_total_cost_eq]
      exact hle
  · intro risk_tolerance draws
    exact get_optimal_cost_le hb risk_tolerance draws
  · intro hc hball
    have hnil : (optimize_single_objective strategies obj budget_limit
        timeline_limit).selected_strategies = [] := by
      show (pickBest obj ((subsets strategies).filter
          (fun sub => decide (listCost sub ≤ budget_limit)))).getD [] = []
      cases hp : pickBest obj ((subsets strategies).filter
          (fun sub => decide (listCost sub ≤ budget_limit))) with
      | none => rfl
      | some sub =>
        simp only [Option.getD_some]
        exact feasible_all_nil hc hball sub (pickBest_mem hp)
    refine ⟨hnil, ?_, ?_⟩
    · rw [single_obj_total_cost_eq, hnil]
      simp [listCost]
    · have : (optimize_single_objective strategies obj budget_limit
          timeline_limit).total_risk_reduction =
          min (listRisk (optimize_single_objective strategies obj budget_limit
            timeline_limit).selected_strategies) 95 := rfl
      rw [this, hnil]
      simp [listRisk]

/-! ## Claim C2 -/

/-- C2: every pair of portfolios in the list returned by `optimize_pareto`
is mutually non-dominated under the §4.1 relation (risk reduction at least
as high, cost and timeline at most as high, at least one strict), and the
surviving portfolios carry `pareto_rank = i + 1` at position `i`, i.e. they
are ranked `1..k` in the order produced. -/
theorem c2_pareto_pairwise_nondominated (strategies : List Strategy)
    (budget_limit timeline_limit : ℚ) (n_solutions : ℕ) :
    (∀ p ∈ optimize_pareto strategies budget_limit timeline_limit n_solutions,
      ∀ q ∈ optimize_pareto strategies budget_limit timeline_limit n_solutions,
        dominatesB p q = false) ∧
    (∀ (i : ℕ) (hi : i < (optimize_pareto strategies budget_limit
        timeline_limit n_solutions).length),
      ((optimize_pareto strategies budget_limit timeline_limit
          n_solutions).get ⟨i, hi⟩).pareto_rank = i + 1) := by
  constructor
  · intro p hp q hq
    simp only [optimize_pareto] at hp hq
    obtain ⟨p2, hp2, hpc, hpr, hpt, _⟩ := assignRanks_mem hp
    obtain ⟨q2, hq2, hqc, hqr, hqt, _⟩ := assignRanks_mem hq
    rw [dominatesB_congr hpr hpc hpt hqr hqc hqt]
    exact filterDominated_not_dominated hq2 (List.mem_of_mem_filter hp2)
  · intro i hi
    simp only [optimize_pareto] at hi ⊢
    rw [assignRanks_get_rank 1 _ i hi]
    omega

/-! ## Claim C3 -/

/-- C3: on the same catalog, budget and timeline (and whatever random draws
the two Monte Carlo finishes consume), the portfolio chosen by
`get_optimal_portfolio` with risk tolerance `"conservative"` never costs
more than the one chosen with `"aggressive"`: the conservative branch picks
the minimum-cost point of the Pareto frontier, the aggressive branch a point
of the same frontier. -/
theorem c3_conservative_cost_le_aggressive (strategies : List Strategy)
    (budget_limit timeline_limit : ℚ) (draws1 draws2 : ℕ → ℕ → ℚ × ℚ) :
    (get_optimal_portfolio strategies budget_limit timeline_limit
        "conservative" draws1).total_cost ≤
      (get_optimal_portfolio strategies budget_limit timeline_limit
        "aggressive" draws2).total_cost := by
  unfold get_optimal_portfolio
  generalize optimize_pareto strategies budget_limit timeline_limit 10 = pareto
  cases pareto with
  | nil => simp
  | cons p ps =>
    have hcons : ("conservative" : String) ≠ "aggressive" := by simp
    simp only [hcons, if_false, if_pos rfl, if_true, monte_carlo_total_cost]
    exact pickMinBy_le (fun x => x.total_cost) ps p _
      (pickMaxBy_mem (fun x => x.total_risk_reduction) ps p)

/-! ## Witnesses for C1 and C2 -/

/-- A concrete strategy too expensive for a budget of 3 (witness input). -/
def c1wStrategy : Strategy :=
  { id := "W1", name := "Witness strategy", category := .process
    risk_reduction_pct := 5, cost_estimate := 5 }

/-- Witness for C1 at the concrete catalog `[c1wStrategy]` and budget 3:
the hypotheses hold and the returned portfolio is within budget and empty. -/
theorem c1_optimize_respects_budget_witness :
    (optimize_single_objective [c1wStrategy] .risk_reduction 3 365).total_cost ≤ 3 ∧
    (optimize_single_objective [c1wStrategy] .risk_reduction 3
        365).selected_strategies = [] ∧
    (optimize_single_objective [c1wStrategy] .risk_reduction 3
        365).total_risk_reduction = 0 := by
  have h := c1_optimize_respects_budget [c1wStrategy] .risk_reduction 3 365
    (by norm_num)
  have hc : ∀ s ∈ [c1wStrategy], 0 ≤ s.cost_estimate := by
    intro s hs
    rw [List.mem_singleton] at hs
    subst hs
    norm_num [c1wStrategy]
  have hball : ∀ s ∈ [c1wStrategy], (3 : ℚ) < s.cost_estimate := by
    intro s hs
    rw [List.mem_singleton] at hs
    subst hs
    norm_num [c1wStrategy]
  exact ⟨h.1, (h.2.2 hc hball).1, (h.2.2 hc hball).2.2⟩

/-- The single frontier point of `optimize_pareto [] 10 365 1`
(witness value for C2). -/
def c2wRes : OptimizationResult :=
  { selected_strategies := []
    total_cost := 0
    total_risk_reduction := 0
    total_timeline_days := 0
    constraints_satisfied := [("budget", true)] }

/-- Witness for C2 at the concrete catalog `[]`, budget 10, one sweep step:
the frontier has one point, it carries rank 1, and it does not dominate
itself. -/
theorem c2_pareto_pairwise_nondominated_witness :
    (optimize_pareto [] 10 365 1).length = 1 ∧
    ((optimize_pareto [] 10 365 1).getD 0 default).pareto_rank = 0 + 1 ∧
    dominatesB ((optimize_pareto [] 10 365 1).getD 0 default)
      ((optimize_pareto [] 10 365 1).getD 0 default) = false := by
  have h2 : optimize_single_objective [] .risk_reduction (10 * (3/10)) 365 = c2wRes := by
    norm_num [optimize_single_objective, subsets, listCost, listRisk, listTimeMax,
      pickBest, c2wRes, min_def]
  have h3 : dominatesB c2wRes c2wRes = false := by
    norm_num [dominatesB, c2wRes]
  have hL : optimize_pareto [] 10 365 1 = [c2wRes] := by
    unfold optimize_pareto
    have h1 : linspace (10 * (3/10)) 10 1 = [10 * (3/10)] := by norm_num [linspace]
    rw [h1]
    simp only [List.map_cons, List.map_nil, h2]
    have h4 : filterDominated [c2wRes] = [c2wRes] := by
      simp [filterDominated, h3]
    rw [h4]
    simp [assignRanks, c2wRes]
  have hth := c2_pareto_pairwise_nondominated [] 10 365 1
  have hlen : (optimize_pareto [] 10 365 1).length = 1 := by rw [hL]; rfl
  have h0 : 0 < (optimize_pareto [] 10 365 1).length := by omega
  have hgd : (optimize_pareto [] 10 365 1).getD 0 default =
      (optimize_pareto [] 10 365 1).get ⟨0, h0⟩ :=
    List.getD_eq_get _ _ h0
  refine ⟨hlen, ?_, ?_⟩
  · rw [hgd]
    exact hth.2 0 h0
  · rw [hgd]
    exact hth.1 _ (List.get_mem _ _ h0) _ (List.get_mem _ _ h0)

/-! ## Claim C4: sensitivity analysis restores the catalog -/

theorem setParam_setParam (s : Strategy) (p : SensParam) (v w : ℚ) :
    setParamEstimate (setParamEstimate s p v) p w = setParamEstimate s p w := by
  cases p <;> rfl

theorem setParam_getParam_self (s : Strategy) (p : SensParam) :
    setParamEstimate s p (getParamEstimate s p) = s := by
  cases p <;> rfl

theorem list_set_get_self {α : Type} (l : List α) (i : ℕ) (h : i < l.length) :
    l.set i (l.get ⟨i, h⟩) = l := by
  induction l generalizing i with
  | nil => simp at h
  | cons x xs ih =>
    cases i with
    | zero => rfl
    | succ j =>
      have hj : j < xs.length := by simpa using h
      simp only [List.set, List.get_cons_succ]
      rw [ih j hj]

/-- One perturb-and-restore round leaves the catalog unchanged. -/
theorem perturb_restore_id (strategies : List Strategy) (i : ℕ) (p : SensParam)
    (v : ℚ) :
    ((strategies.set i (setParamEstimate (strategies.getD i default) p v)).set i
        (setParamEstimate
          ((strategies.set i
            (setParamEstimate (strategies.getD i default) p v)).getD i default)
          p (getParamEstimate (strategies.getD i default) p))) = strategies := by
  by_cases h : i < strategies.length
  · have hset : i < (strategies.set i
        (setParamEstimate (strategies.getD i default) p v)).length := by
      simpa using h
    have hgd : (strategies.set i
        (setParamEstimate (strategies.getD i default) p v)).getD i default =
        setParamEstimate (strategies.getD i default) p v := by
      rw [List.getD_eq_getElem _ _ hset]
      exact List.getElem_set_self (by simpa using h)
    rw [hgd, List.set_set, setParam_setParam, setParam_getParam_self]
    have hgd2 : strategies.getD i default = strategies.get ⟨i, h⟩ :=
      List.getD_eq_get _ _ h
    rw [hgd2]
    exact list_set_get_self strategies i h
  · push_neg at h
    rw [List.set_eq_of_length_le h, List.set_eq_of_length_le (by simpa using h)]

/-- C4: `sensitivity_analysis` restores every perturbed estimate before it
returns: the catalog state after the call equals the state before the call,
for every catalog, every set of selected-strategy positions, either perturbed
parameter, and every baseline.  The embedded operations are total (spec §7:
the core must not raise on inputs passing construction), so every exit path
of the embedding is the return path, which provably restores; the
mutate-then-restore sequence transcribes lines 337–350 of `optimizer.py`. -/
theorem c4_sensitivity_restores_catalog (strategies : List Strategy)
    (selectedIdx : List ℕ) (param : SensParam) (base_value : ℚ) :
    (sensitivity_analysis strategies selectedIdx param base_value).2 = strategies := by
  induction selectedIdx generalizing strategies with
  | nil => rfl
  | cons i rest ih =>
    simp only [sensitivity_analysis]
    rw [perturb_restore_id strategies i param]
    exact ih strategies

/-! ## Claim C5: robustness score bounds and grade thresholds -/

/-- C5: for every sequence of attack results, the robustness score computed
by `assess_robustness` lies in `[0, 100]` and equals the spec's
`clamp((100 − mean degradation) · viability fraction, 0, 100)`; and the
letter-grade boundaries are exact: any score ≥ 85 grades `"A"`, any score in
`[70, 85)` grades `"B"` (so 85.0 → A while 84.999 → B), `[55, 70)` → `"C"`,
`[40, 55)` → `"D"`, below 40 → `"F"`. -/
theorem c5_robustness_score_bounds_and_grades (results : List AttackResult) :
    (0 ≤ robustness_score results ∧ robustness_score results ≤ 100) ∧
    robustness_score results =
      clampSpec ((100 - avg_degradation results) * viability_rate results) 0 100 ∧
    (∀ s : ℚ, 85 ≤ s → resilience_rating s = "A") ∧
    (∀ s : ℚ, 70 ≤ s → s < 85 → resilience_rating s = "B") ∧
    (∀ s : ℚ, 55 ≤ s → s < 70 → resilience_rating s = "C") ∧
    (∀ s : ℚ, 40 ≤ s → s < 55 → resilience_rating s = "D") ∧
    (∀ s : ℚ, s < 40 → resilience_rating s = "F") := by
  refine ⟨⟨le_max_left 0 _, ?_⟩, rfl, ?_, ?_, ?_, ?_, ?_⟩
  · exact max_le (by norm_num) (min_le_left 100 _)
  · intro s hs
    simp only [resilience_rating, if_pos hs]
  · intro s h1 h2
    have hn : ¬(85 ≤ s) := by linarith
    simp only [resilience_rating, if_neg hn, if_pos h1]
  · intro s h1 h2
    have hn1 : ¬(85 ≤ s) := by linarith
    have hn2 : ¬(70 ≤ s) := by linarith
    simp only [resilience_rating, if_neg hn1, if_neg hn2, if_pos h1]
  · intro s h1 h2
    have hn1 : ¬(85 ≤ s) := by linarith
    have hn2 : ¬(70 ≤ s) := by linarith
    have hn3 : ¬(55 ≤ s) := by linarith
    simp only [resilience_rating, if_neg hn1, if_neg hn2, if_neg hn3, if_pos h1]
  · intro s h1
    have hn1 : ¬(85 ≤ s) := by linarith
    have hn2 : ¬(70 ≤ s) := by linarith
    have hn3 : ¬(55 ≤ s) := by linarith
    have hn4 : ¬(40 ≤ s) := by linarith
    simp only [resilience_rating, if_neg hn1, if_neg hn2, if_neg hn3, if_neg hn4]

/-- Witness for C5: concrete evaluation of the score bounds on the empty
result list and of the exact grade boundaries at 85.0 and 84.999. -/
theorem c5_robustness_score_bounds_and_grades_witness :
    (0 ≤ robustness_score [] ∧ robustness_score [] ≤ 100) ∧
    resilience_rating 85 = "A" ∧ resilience_rating (84999/1000) = "B" := by
  refine ⟨(c5_robustness_score_bounds_and_grades []).1, ?_, ?_⟩
  · exact (c5_robustness_score_bounds_and_grades []).2.2.1 85 (by norm_num)
  · exact (c5_robustness_score_bounds_and_grades []).2.2.2.1 (84999/1000)
      (by norm_num) (by norm_num)

/-! ## Claim C6: strategy failure against the sole selected strategy -/

/-- C6: for a portfolio whose selection is a single strategy `s` (with the
portfolio's aggregate risk reduction consistent with the optimizer's
construction, i.e. at most `s`'s own risk reduction) and positive original
risk reduction, a `strategy_failure` attack targeting `s` degrades the risk
reduction to exactly 0 and leaves the scenario non-viable (0 is below the
50%-of-original viability threshold). -/
theorem c6_strategy_failure_sole_strategy (s : Strategy)
    (p : OptimizationResult) (a : Attack)
    (hsel : p.selected_strategies = [s])
    (hrr : p.total_risk_reduction ≤ s.risk_reduction_pct)
    (hpos : 0 < p.total_risk_reduction)
    (htype : a.attack_type = .strategy_failure)
    (haff : a.affected_strategies = [s.id]) :
    (apply_attack p a).degraded_outcome.risk_reduction = 0 ∧
    (apply_attack p a).still_viable = false := by
  have hfail : p.selected_strategies.filter
      (fun t => decide (t.id ∈ a.affected_strategies)) = [s] := by
    rw [hsel, haff]
    simp
  have hfr : listRisk [s] = s.risk_reduction_pct := by simp [listRisk]
  have hdeg : max 0 (p.total_risk_reduction - listRisk [s]) = 0 := by
    rw [hfr]
    exact max_eq_left (by linarith)
  constructor
  · simp only [apply_attack, htype, hfail, hdeg]
  · simp only [apply_attack, htype, hfail, hdeg]
    rw [decide_eq_false]
    intro hcon
    nlinarith

/-- Concrete sole strategy for the C6 witness. -/
def c6wStrategy : Strategy :=
  { id := "W2", name := "Sole strategy", category := .training
    risk_reduction_pct := 20, cost_estimate := 100 }

/-- Concrete single-strategy portfolio for the C6 witness (aggregates as the
optimizer builds them: cost 100, risk reduction `min 20 95 = 20`). -/
def c6wPortfolio : OptimizationResult :=
  { selected_strategies := [c6wStrategy]
    total_cost := 100
    total_risk_reduction := 20
    total_timeline_days := 10 }

/-- The `strategy_failure` template specialized to target the sole selected
strategy, as `generate_attacks` produces it (C6 witness input). -/
def c6wAttack : Attack :=
  { attack_type := .strategy_failure
    description := "Strategy Sole strategy fails completely"
    severity := "high", probability := 15/100
    affected_strategies := ["W2"], impact_multiplier := 0 }

/-- Witness for C6 at the concrete portfolio and attack. -/
theorem c6_strategy_failure_sole_strategy_witness :
    (apply_attack c6wPortfolio c6wAttack).degraded_outcome.risk_reduction = 0 ∧
    (apply_attack c6wPortfolio c6wAttack).still_viable = false :=
  c6_strategy_failure_sole_strategy c6wStrategy c6wPortfolio c6wAttack
    (by simp [c6wPortfolio])
    (by norm_num [c6wPortfolio, c6wStrategy])
    (by norm_num [c6wPortfolio])
    (by simp [c6wAttack])
    (by simp [c6wAttack, c6wStrategy])

/-! ## Claim C10: vendor delay and regulatory change have no application
branch -/

/-- C10: `apply_attack` has no branch for `vendor_delay` or
`regulatory_change`: the degraded outcome equals the original outcome
verbatim, the degradation percentage is 0, and the scenario is still viable
whenever the portfolio's original risk reduction is non-negative.  (Both
types do occur in `_build_attack_library`: `attack_library_has_vendor_regulatory`
below.) -/
theorem c10_vendor_regulatory_no_degradation (p : OptimizationResult)
    (a : Attack)
    (ht : a.attack_type = .vendor_delay ∨ a.attack_type = .regulatory_change) :
    (apply_attack p a).degraded_outcome = (apply_attack p a).original_outcome ∧
    (apply_attack p a).outcome_degradation_pct = 0 ∧
    (0 ≤ p.total_risk_reduction → (apply_attack p a).still_viable = true) := by
  have hdeg : ∀ x : ℚ, (if 0 < x then (x - x) / x * 100 else 0) = 0 := by
    intro x
    by_cases hx : 0 < x
    · rw [if_pos hx]
      rw [sub_self, zero_div, zero_mul]
    · rw [if_neg hx]
  rcases ht with ht | ht
  · refine ⟨?_, ?_, ?_⟩
    · simp only [apply_attack, ht]
    · simp only [apply_attack, ht]
      exact hdeg p.total_risk_reduction
    · intro hnn
      simp only [apply_attack, ht]
      rw [decide_eq_true]
      linarith
  · refine ⟨?_, ?_, ?_⟩
    · simp only [apply_attack, ht]
    · simp only [apply_attack, ht]
      exact hdeg p.total_risk_reduction
    · intro hnn
      simp only [apply_attack, ht]
      rw [decide_eq_true]
      linarith

/-- The fixed attack library does carry one `vendor_delay` and one
`regulatory_change` template (context for C10). -/
theorem attack_library_has_vendor_regulatory :
    (attack_library.filter
      (fun a => decide (a.attack_type = .vendor_delay))).length = 1 ∧
    (attack_library.filter
      (fun a => decide (a.attack_type = .regulatory_change))).length = 1 := by
  constructor <;> rfl

/-- Concrete portfolio for the C10 witness. -/
def c10wPortfolio : OptimizationResult :=
  { selected_strategies := []
    total_cost := 50
    total_risk_reduction := 30
    total_timeline_days := 14 }

/-- Witness for C10 at a concrete portfolio and the library's
`vendor_delay` template. -/
theorem c10_vendor_regulatory_no_degradation_witness :
    (apply_attack c10wPortfolio (attack_library.getD 6 default)).degraded_outcome =
      (apply_attack c10wPortfolio (attack_library.getD 6 default)).original_outcome ∧
    (apply_attack c10wPortfolio
      (attack_library.getD 6 default)).outcome_degradation_pct = 0 ∧
    (apply_attack c10wPortfolio
      (attack_library.getD 6 default)).still_viable = true := by
  have h := c10_vendor_regulatory_no_degradation c10wPortfolio
    (attack_library.getD 6 default)
    (Or.inl (by simp [attack_library]))
  exact ⟨h.1, h.2.1, h.2.2 (by norm_num [c10wPortfolio])⟩

/-! ## Claim C7: horizon classification of the spec's scenario strategy -/

/-- The spec §8 scenario strategy: `time_estimate = 10`, cost 10,000,
category `process`. -/
def c7wStrategy : Strategy :=
  { id := "H1", name := "Horizon scenario strategy", category := .process
    risk_reduction_pct := 10, cost_estimate := 10000, time_estimate := 10 }

/-- Counterexample to C7 as stated: the scenario strategy is eligible for
Immediate and NOT for Strategic, as claimed — but it is also NOT eligible
for Tactical, because its `time_estimate` 10 fails the Tactical test
`14 <= time_estimate <= 180` (`multi_horizon.py` line 189), contradicting the
claim's "eligible ... for the Tactical horizon". -/
theorem c7_counterexample_not_tactical :
    Horizon.immediate ∈ classifyStrategy c7wStrategy ∧
    Horizon.tactical ∉ classifyStrategy c7wStrategy ∧
    Horizon.strategic ∉ classifyStrategy c7wStrategy := by
  have h : classifyStrategy c7wStrategy = [Horizon.immediate] := by
    norm_num [classifyStrategy, c7wStrategy]
    simp
  rw [h]
  refine ⟨List.mem_singleton_self _, ?_, ?_⟩ <;> simp

/-- C7 amended: a strategy with `time_estimate = 10`, cost 10,000 and
category `process` is classified eligible for the Immediate horizon only —
not for Tactical (10 is below the Tactical lower bound 14) and not for
Strategic. -/
theorem c7_amended_immediate_only :
    classifyStrategy c7wStrategy = [Horizon.immediate] := by
  norm_num [classifyStrategy, c7wStrategy]
  simp

/-! ## Claim C8: Strategy construction performs no validation -/

/-- A malformed strategy value: `cost_min > cost_max`, negative
`cost_estimate`, `time_min > time_max`, built by the ordinary `Strategy`
constructor (the Python dataclass's generated `__init__`, which has no
`__post_init__` validation hook). -/
def c8wMalformed : Strategy :=
  { id := "B1", name := "Malformed", category := .process
    risk_reduction_pct := 10
    cost_min := 10, cost_max := 5, cost_estimate := -1
    time_min := 9, time_max := 2, time_estimate := 1 }

/-- Counterexample to C8 as stated: construction of a `Strategy` with
`cost_min > cost_max` and a negative cost succeeds — the constructor
accepts the malformed values, so a constructed `Strategy` violating the
claimed invariants exists, contradicting "fails with a validation error at
construction time; such values are never accepted". -/
theorem c8_counterexample_malformed_accepted :
    c8wMalformed.cost_max < c8wMalformed.cost_min ∧
    c8wMalformed.cost_estimate < 0 ∧
    c8wMalformed.time_max < c8wMalformed.time_min := by
  norm_num [c8wMalformed]

/-- C8 amended: `Strategy` is a plain dataclass whose constructor performs no
validation at all — malformed ranges (min > max) and negative costs are
accepted and stored verbatim.  The half of the claim that does hold is that
values are never silently clamped: every field of the constructed value
equals the argument passed in. -/
theorem c8_amended_no_validation (id name : String)
    (category : StrategyCategory) (rr conf cmin cmax cest tmin tmax te : ℚ)
    (rb : Bool) (dl al : String) (art : List String) :
    (Strategy.mk id name category rr conf cmin cmax cest tmin tmax te
        rb dl al art).cost_min = cmin ∧
    (Strategy.mk id name category rr conf cmin cmax cest tmin tmax te
        rb dl al art).cost_max = cmax ∧
    (Strategy.mk id name category rr conf cmin cmax cest tmin tmax te
        rb dl al art).cost_estimate = cest ∧
    (Strategy.mk id name category rr conf cmin cmax cest tmin tmax te
        rb dl al art).time_min = tmin ∧
    (Strategy.mk id name category rr conf cmin cmax cest tmin tmax te
        rb dl al art).time_max = tmax ∧
    (Strategy.mk id name category rr conf cmin cmax cest tmin tmax te
        rb dl al art).risk_reduction_pct = rr :=
  ⟨rfl, rfl, rfl, rfl, rfl, rfl⟩

/-! ## Claim C9: no id appears in more than one horizon -/

theorem greedySelect_mem {budget : ℚ} {l : List Strategy} {running : ℚ}
    {x : Strategy} (h : x ∈ greedySelect budget l running) : x ∈ l := by
  induction l generalizing running with
  | nil => simp [greedySelect] at h
  | cons s rest ih =>
    simp only [greedySelect] at h
    by_cases hfit : running + s.cost_estimate ≤ budget
    · rw [if_pos hfit] at h
      rcases List.mem_cons.mp h with rfl | h2
      · exact List.mem_cons_self x rest
      · exact List.mem_cons_of_mem s (ih h2)
    · rw [if_neg hfit] at h
      exact List.mem_cons_of_mem s (ih h)

theorem insertDesc_mem {f : Strategy → ℚ} {y x : Strategy} {l : List Strategy}
    (h : x ∈ insertDesc f y l) : x = y ∨ x ∈ l := by
  induction l with
  | nil => simpa [insertDesc] using h
  | cons z zs ih =>
    simp only [insertDesc] at h
    by_cases hle : f z ≤ f y
    · rw [if_pos hle] at h
      rcases List.mem_cons.mp h with rfl | h2
      · exact Or.inl rfl
      · exact Or.inr h2
    · rw [if_neg hle] at h
      rcases List.mem_cons.mp h with rfl | h2
      · exact Or.inr (List.mem_cons_self x zs)
      · rcases ih h2 with h3 | h3
        · exact Or.inl h3
        · exact Or.inr (List.mem_cons_of_mem z h3)

theorem sortDescBy_mem {f : Strategy → ℚ} {l : List Strategy} {x : Strategy}
    (h : x ∈ sortDescBy f l) : x ∈ l := by
  induction l with
  | nil => simpa [sortDescBy] using h
  | cons y ys ih =>
    simp only [sortDescBy] at h
    rcases insertDesc_mem h with rfl | h2
    · exact List.mem_cons_self x ys
    · exact List.mem_cons_of_mem y (ih h2)

/-- Every id selected by `optimize_horizon` escaped the exclusion list: the
suitability filter drops all excluded ids before ranking and greedy
selection. -/
theorem optimize_horizon_not_excluded {catalog : List Strategy} {h : Horizon}
    {b : ℚ} {excl : List String} {sid : String}
    (hs : sid ∈ planIds (optimize_horizon catalog h b excl)) : sid ∉ excl := by
  simp only [planIds, List.mem_map] at hs
  obtain ⟨s, hsel, rfl⟩ := hs
  have hsel2 : s ∈ greedySelect b
      (sortDescBy (priority_score (horizon_config h))
        (catalog.filter (fun t =>
          decide (t.id ∉ excl) &&
          decide (h ∈ horizonsOfId catalog t.id) &&
          decide (t.time_estimate ≤ (horizon_config h).max_days)))) 0 := hsel
  have h1 := sortDescBy_mem (greedySelect_mem hsel2)
  have h2 := List.mem_filter.mp h1
  have h3 := h2.2
  simp only [Bool.and_eq_true, decide_eq_true_eq] at h3
  exact h3.1.1

/-- C9: across the three `HorizonPlan`s produced by one
`optimize_all_horizons` run (in the fixed order Immediate → Tactical →
Strategic, each horizon's selected ids being excluded from the pool before
the next is optimized), no strategy id appears in more than one horizon. -/
theorem c9_horizons_disjoint (catalog : List Strategy)
    (risk_score budgetImmediate budgetTactical budgetStrategic : ℚ)
    (sid : String) :
    (sid ∈ planIds (optimize_all_horizons catalog risk_score budgetImmediate
        budgetTactical budgetStrategic).tactical_plan →
      sid ∉ planIds (optimize_all_horizons catalog risk_score budgetImmediate
        budgetTactical budgetStrategic).immediate_plan) ∧
    (sid ∈ planIds (optimize_all_horizons catalog risk_score budgetImmediate
        budgetTactical budgetStrategic).strategic_plan →
      sid ∉ planIds (optimize_all_horizons catalog risk_score budgetImmediate
        budgetTactical budgetStrategic).immediate_plan ∧
      sid ∉ planIds (optimize_all_horizons catalog risk_score budgetImmediate
        budgetTactical budgetStrategic).tactical_plan) := by
  have himm : (optimize_all_horizons catalog risk_score budgetImmediate
      budgetTactical budgetStrategic).immediate_plan =
      optimize_horizon catalog .immediate budgetImmediate [] := rfl
  have htac : (optimize_all_horizons catalog risk_score budgetImmediate
      budgetTactical budgetStrategic).tactical_plan =
      optimize_horizon catalog .tactical budgetTactical
        (planIds (optimize_horizon catalog .immediate budgetImmediate [])) := rfl
  have hstr : (optimize_all_horizons catalog risk_score budgetImmediate
      budgetTactical budgetStrategic).strategic_plan =
      optimize_horizon catalog .strategic budgetStrategic
        (planIds (optimize_horizon catalog .immediate budgetImmediate []) ++
          planIds (optimize_horizon catalog .tactical budgetTactical
            (planIds (optimize_horizon catalog .immediate
              budgetImmediate [])))) := rfl
  refine ⟨?_, ?_⟩
  · intro hmem
    rw [htac] at hmem
    rw [himm]
    exact optimize_horizon_not_excluded hmem
  · intro hmem
    rw [hstr] at hmem
    have hnot := optimize_horizon_not_excluded hmem
    rw [List.mem_append] at hnot
    push_neg at hnot
    rw [himm, htac]
    exact hnot

/-- Witness strategy eligible only for the Immediate horizon. -/
def c9wP : Strategy :=
  { id := "P", name := "Quick process fix", category := .process
    risk_reduction_pct := 5, cost_estimate := 1000, time_estimate := 7 }

/-- Witness strategy eligible only for the Tactical horizon. -/
def c9wT : Strategy :=
  { id := "T", name := "Crew training", category := .training
    risk_reduction_pct := 10, cost_estimate := 2000, time_estimate := 45 }

/-- Witness catalog for C9. -/
def c9wCatalog : List Strategy := [c9wP, c9wT]

/-- Witness for C9: on the concrete two-strategy catalog, the Tactical plan
selects id `"T"`, and the claim theorem yields that `"T"` therefore does not
appear in the Immediate plan. -/
theorem c9_horizons_disjoint_witness :
    "T" ∈ planIds (optimize_all_horizons c9wCatalog 50 10000 10000
      10000).tactical_plan ∧
    "T" ∉ planIds (optimize_all_horizons c9wCatalog 50 10000 10000
      10000).immediate_plan := by
  have hmem : "T" ∈ planIds (optimize_all_horizons c9wCatalog 50 10000 10000
      10000).tactical_plan := by
    norm_num [optimize_all_horizons, optimize_horizon, planIds, horizonsOfId,
      classifyStrategy, horizon_config, priority_score, sortDescBy, insertDesc,
      greedySelect, listCost, c9wCatalog, c9wP, c9wT]
  exact ⟨hmem,
    (c9_horizons_disjoint c9wCatalog 50 10000 10000 10000 "T").1 hmem⟩
